import Mathlib

/-!
Shallow embedding of the piecewise-linear two-phase material law
(`PiecewiseLinearTwoPhaseMaterial`) from the OPM material library,
together with the two-phase material traits.  Scalars are modelled as
rationals, sample tables as lists of (x, y) pairs, per-phase output
containers as functions from phase index to scalar, and the throwing
entry points as `Except`-valued functions.
-/

namespace PLTwoPhase

/-- The scalar type of the law (`Traits::Scalar`). -/
abbrev Scalar := ℚ

/-- One sampling point: (independent variable, dependent variable). -/
abbrev SamplePoint := Scalar × Scalar

/-- `ParamsT::SamplePoints`: an ordered sequence of sampling points. -/
abbrev SamplePoints := List SamplePoint

/-- `samples[i].first`: the x-value of the i-th sampling point
(out-of-range access is modelled by a default, never exercised under
the in-bounds hypotheses proved below). -/
def xval (samples : SamplePoints) (i : ℕ) : Scalar :=
  (samples.getD i (0, 0)).1

/-- `samples[i].second`: the y-value of the i-th sampling point. -/
def yval (samples : SamplePoints) (i : ℕ) : Scalar :=
  (samples.getD i (0, 0)).2

/-- `PiecewiseLinearTwoPhaseMaterialParams`: the three sample tables. -/
structure Params where
  pcnwSamples : SamplePoints
  krwSamples : SamplePoints
  krnSamples : SamplePoints

/-- `TwoPhaseMaterialTraits`: the two phase indices. -/
structure Traits where
  wPhaseIdx : ℕ
  nPhaseIdx : ℕ

/-- `Traits::numPhases` (statically 2 for this law). -/
def numPhases : ℕ := 2

/-- The fluid-state collaborator: only its saturation accessor is used. -/
structure FluidState where
  saturation : ℕ → Scalar

/-- A per-phase output container `values` after the write
`values[i] = v` (all other entries unchanged). -/
def upd (values : ℕ → Scalar) (i : ℕ) (v : Scalar) : ℕ → Scalar :=
  fun j => if j = i then v else values j

/-- The loop `for (k = 0; k < numZeros; ++k) values[k] = 0.0;`
used by the pressure/temperature/mole-fraction derivative functions. -/
def zeroFill : ℕ → (ℕ → Scalar) → (ℕ → Scalar)
  | 0, values => values
  | k + 1, values => upd (zeroFill k values) k 0

/-- The while-loop body of `findSegmentIndex_`, with an explicit fuel
bound (the loop strictly shrinks `highIdx - lowIdx`, so any fuel of at
least `highIdx - lowIdx` computes the loop to completion; this is
proved below). -/
def bisect (samples : SamplePoints) (x : Scalar) : ℕ → ℕ → ℕ → ℕ
  | 0, lowIdx, _highIdx => lowIdx
  | fuel + 1, lowIdx, highIdx =>
    if lowIdx + 1 < highIdx then
      if xval samples ((lowIdx + highIdx) / 2) < x then
        bisect samples x fuel ((lowIdx + highIdx) / 2) highIdx
      else
        bisect samples x fuel lowIdx ((lowIdx + highIdx) / 2)
    else
      lowIdx

/-- `findSegmentIndex_(samples, x)`: the segment-location routine. -/
def findSegmentIndex_ (samples : SamplePoints) (x : Scalar) : ℕ :=
  let n := samples.length - 1
  if xval samples n < x then
    n - 1
  else if xval samples 0 > x then
    0
  else
    bisect samples x samples.length 0 n

/-- `eval_(samples, x)`: piecewise-linear interpolation on the segment
selected by `findSegmentIndex_`. -/
def eval_ (samples : SamplePoints) (x : Scalar) : Scalar :=
  let segIdx := findSegmentIndex_ samples x
  let alpha := (x - xval samples segIdx)
    / (xval samples (segIdx + 1) - xval samples segIdx)
  yval samples segIdx + (yval samples (segIdx + 1) - yval samples segIdx) * alpha

/-- `evalDeriv_(samples, x)`: the constant slope of the segment
selected by `findSegmentIndex_`. -/
def evalDeriv_ (samples : SamplePoints) (x : Scalar) : Scalar :=
  let segIdx := findSegmentIndex_ samples x
  (yval samples (segIdx + 1) - yval samples segIdx)
    / (xval samples (segIdx + 1) - xval samples segIdx)

/-- `twoPhaseSatPcnw(params, Sw)` as written in the source: it calls
`evalDeriv_` on the capillary-pressure table. -/
def twoPhaseSatPcnw (params : Params) (sw : Scalar) : Scalar :=
  evalDeriv_ params.pcnwSamples sw

/-- `pcnw(params, fs)`. -/
def pcnw (t : Traits) (params : Params) (fs : FluidState) : Scalar :=
  twoPhaseSatPcnw params (fs.saturation t.wPhaseIdx)

/-- `capillaryPressures(values, params, fs)`. -/
def capillaryPressures (t : Traits) (values : ℕ → Scalar) (params : Params)
    (fs : FluidState) : ℕ → Scalar :=
  upd (upd values t.wPhaseIdx 0) t.nPhaseIdx (pcnw t params fs)

/-- `twoPhaseSatDPcnw_dSw(params, Sw)`: the debug assertion
`assert(0 < Sw && Sw < 1)` is modelled by an `Option`, `none` meaning
the assertion fires. -/
def twoPhaseSatDPcnw_dSw (params : Params) (sw : Scalar) : Option Scalar :=
  if 0 < sw ∧ sw < 1 then
    some (evalDeriv_ params.pcnwSamples sw)
  else
    none

/-- `twoPhaseSatKrw(params, Sw)`. -/
def twoPhaseSatKrw (params : Params) (sw : Scalar) : Scalar :=
  if sw < xval params.krwSamples 0 then
    yval params.krwSamples 0
  else if sw > xval params.krwSamples (params.krwSamples.length - 1) then
    yval params.krwSamples (params.krwSamples.length - 1)
  else
    eval_ params.krwSamples sw

/-- `krw(params, fs)`. -/
def krw (t : Traits) (params : Params) (fs : FluidState) : Scalar :=
  twoPhaseSatKrw params (fs.saturation t.wPhaseIdx)

/-- `twoPhaseSatDKrw_dSw(params, Sw)`. -/
def twoPhaseSatDKrw_dSw (params : Params) (sw : Scalar) : Scalar :=
  if sw < xval params.krwSamples 0 then
    0
  else if sw > xval params.krwSamples (params.krwSamples.length - 1) then
    0
  else
    evalDeriv_ params.krwSamples sw

/-- `twoPhaseSatKrn(params, Sw)`. -/
def twoPhaseSatKrn (params : Params) (sw : Scalar) : Scalar :=
  if sw < xval params.krnSamples 0 then
    yval params.krnSamples 0
  else if sw > xval params.krnSamples (params.krnSamples.length - 1) then
    yval params.krnSamples (params.krnSamples.length - 1)
  else
    eval_ params.krnSamples sw

/-- `krn(params, fs)`: evaluated at wetting coordinate `1 - Sn`. -/
def krn (t : Traits) (params : Params) (fs : FluidState) : Scalar :=
  twoPhaseSatKrn params (1 - fs.saturation t.nPhaseIdx)

/-- `twoPhaseSatDKrn_dSw(params, Sw)` as written in the source: the
out-of-range guards inspect `krwSamples` while the slope is taken from
`krnSamples`. -/
def twoPhaseSatDKrn_dSw (params : Params) (sw : Scalar) : Scalar :=
  if sw < xval params.krwSamples 0 then
    0
  else if sw > xval params.krwSamples (params.krwSamples.length - 1) then
    0
  else
    evalDeriv_ params.krnSamples sw

/-- `relativePermeabilities(values, params, fs)`. -/
def relativePermeabilities (t : Traits) (values : ℕ → Scalar) (params : Params)
    (fs : FluidState) : ℕ → Scalar :=
  upd (upd values t.wPhaseIdx (krw t params fs)) t.nPhaseIdx (krn t params fs)

/-- `dCapillaryPressures_dSaturation(values, params, state, satPhaseIdx)`. -/
def dCapillaryPressures_dSaturation (t : Traits) (values : ℕ → Scalar)
    (params : Params) (state : FluidState) (satPhaseIdx : ℕ) : ℕ → Scalar :=
  let v := upd (upd values t.wPhaseIdx 0) t.nPhaseIdx 0
  if satPhaseIdx = t.wPhaseIdx then
    upd v t.nPhaseIdx (evalDeriv_ params.pcnwSamples (state.saturation t.wPhaseIdx))
  else
    v

/-- `dCapillaryPressures_dPressure`. -/
def dCapillaryPressures_dPressure (values : ℕ → Scalar) (_params : Params)
    (_state : FluidState) (_pPhaseIdx : ℕ) : ℕ → Scalar :=
  zeroFill numPhases values

/-- `dCapillaryPressures_dTemperature`. -/
def dCapillaryPressures_dTemperature (values : ℕ → Scalar) (_params : Params)
    (_state : FluidState) : ℕ → Scalar :=
  zeroFill numPhases values

/-- `dCapillaryPressures_dMoleFraction`. -/
def dCapillaryPressures_dMoleFraction (values : ℕ → Scalar) (_params : Params)
    (_state : FluidState) (_phaseIdx _compIdx : ℕ) : ℕ → Scalar :=
  zeroFill numPhases values

/-- `dRelativePermeabilities_dSaturation(values, params, state,
satPhaseIdx)` as written in the source: the non-wetting branch
differentiates `krwSamples`. -/
def dRelativePermeabilities_dSaturation (t : Traits) (values : ℕ → Scalar)
    (params : Params) (state : FluidState) (satPhaseIdx : ℕ) : ℕ → Scalar :=
  if satPhaseIdx = t.wPhaseIdx then
    upd (upd values t.wPhaseIdx
        (evalDeriv_ params.krwSamples (state.saturation t.wPhaseIdx)))
      t.nPhaseIdx 0
  else
    upd (upd values t.wPhaseIdx 0) t.nPhaseIdx
      (- evalDeriv_ params.krwSamples (1 - state.saturation t.nPhaseIdx))

/-- `dRelativePermeabilities_dPressure`. -/
def dRelativePermeabilities_dPressure (values : ℕ → Scalar) (_params : Params)
    (_state : FluidState) (_pPhaseIdx : ℕ) : ℕ → Scalar :=
  zeroFill numPhases values

/-- `dRelativePermeabilities_dTemperature`. -/
def dRelativePermeabilities_dTemperature (values : ℕ → Scalar) (_params : Params)
    (_state : FluidState) : ℕ → Scalar :=
  zeroFill numPhases values

/-- `dRelativePermeabilities_dMoleFraction`. -/
def dRelativePermeabilities_dMoleFraction (values : ℕ → Scalar) (_params : Params)
    (_state : FluidState) (_phaseIdx _compIdx : ℕ) : ℕ → Scalar :=
  zeroFill numPhases values

/-- `Sw(params, fs)`: throws Unsupported-Operation. -/
def Sw (_params : Params) (_t : Traits) (_fs : FluidState) : Except String Scalar :=
  Except.error "Not implemented: Sw()"

/-- `twoPhaseSatSw(params, pC)`: throws Unsupported-Operation. -/
def twoPhaseSatSw (_params : Params) (_pC : Scalar) : Except String Scalar :=
  Except.error "Not implemented: twoPhaseSatSw()"

/-- `Sn(params, fs) = 1 - Sw(params, fs)`: inherits the throw. -/
def Sn (params : Params) (t : Traits) (fs : FluidState) : Except String Scalar :=
  (Sw params t fs).map (fun s => 1 - s)

/-- `twoPhaseSatSn(params, pC) = 1 - twoPhaseSatSw(params, pC)`. -/
def twoPhaseSatSn (params : Params) (pC : Scalar) : Except String Scalar :=
  (twoPhaseSatSw params pC).map (fun s => 1 - s)

/-- `saturations(values, params, fs)`: throws Unsupported-Operation. -/
def saturations (_values : ℕ → Scalar) (_params : Params) (_t : Traits)
    (_fs : FluidState) : Except String (ℕ → Scalar) :=
  Except.error "Not implemented: saturations()"

/-- The table invariant: knot x-values strictly increase. -/
def sortedStrict (samples : SamplePoints) : Prop :=
  List.Chain' (fun a b => a.1 < b.1) samples

/-- The capillary-pressure table of the worked spec example:
`[(0.0, 0.0), (0.5, 1000.0), (1.0, 3000.0)]`. -/
def pcTable : SamplePoints := [(0, 0), (1/2, 1000), (1, 3000)]

/-- The wetting-relperm table of the worked spec example:
`[(0.2, 0.0), (1.0, 1.0)]`. -/
def krwTable : SamplePoints := [(1/5, 0), (1, 1)]

/-- A non-wetting-relperm table whose domain starts above the
wetting-relperm table's domain. -/
def krnTable : SamplePoints := [(3/10, 1), (1, 0)]

/-- A concrete parameter object combining the three tables above. -/
def exampleParams : Params := ⟨pcTable, krwTable, krnTable⟩

/-- The usual phase numbering: wetting = 0, non-wetting = 1. -/
def exampleTraits : Traits := ⟨0, 1⟩

/-- A fluid state whose every phase saturation is 1/2. -/
def halfState : FluidState := ⟨fun _ => 1/2⟩

/-- Loop invariant of the bisection: starting from a window whose left
end is 0 or strictly below `x` and whose right end is not below `x`,
the loop returns an index `r` inside the window with the same two
properties for `r` and `r + 1`, provided the fuel covers the window
width. -/
lemma bisect_inv (samples : SamplePoints) (x : Scalar) :
    ∀ fuel low high, high - low ≤ fuel → low < high →
      (low = 0 ∨ xval samples low < x) → ¬ xval samples high < x →
      low ≤ bisect samples x fuel low high
      ∧ bisect samples x fuel low high + 1 ≤ high
      ∧ (bisect samples x fuel low high = 0 ∨ xval samples (bisect samples x fuel low high) < x)
      ∧ ¬ xval samples (bisect samples x fuel low high + 1) < x := by
  intro fuel
  induction fuel with
  | zero =>
    intro low high hf hlh _ _
    omega
  | succ fuel ih =>
    intro low high hf hlh hlow hhigh
    by_cases hc : low + 1 < high
    · have hmid1 : low < (low + high) / 2 := by omega
      have hmid2 : (low + high) / 2 < high := by omega
      by_cases hx : xval samples ((low + high) / 2) < x
      · have h := ih ((low + high) / 2) high (by omega) hmid2 (Or.inr hx) hhigh
        simp only [bisect, if_pos hc, if_pos hx]
        exact ⟨by omega, h.2.1, h.2.2.1, h.2.2.2⟩
      · have h := ih low ((low + high) / 2) (by omega) hmid1 hlow hx
        simp only [bisect, if_pos hc, if_neg hx]
        exact ⟨h.1, by omega, h.2.2.1, h.2.2.2⟩
    · have hhl : high = low + 1 := by omega
      simp only [bisect, if_neg hc]
      subst hhl
      exact ⟨Nat.le_refl low, by omega, hlow, hhigh⟩

/-- The bisection result does not depend on the fuel, as long as the
fuel covers the window width: the loop terminates on its own. -/
lemma bisect_fuel_irrel (samples : SamplePoints) (x : Scalar) :
    ∀ fuel fuel' low high, high - low ≤ fuel → high - low ≤ fuel' →
      bisect samples x fuel low high = bisect samples x fuel' low high := by
  intro fuel
  induction fuel with
  | zero =>
    intro fuel' low high hf _
    cases fuel' with
    | zero => rfl
    | succ m =>
      simp only [bisect]
      rw [if_neg (by omega)]
  | succ fuel ih =>
    intro fuel' low high hf hf'
    cases fuel' with
    | zero =>
      simp only [bisect]
      rw [if_neg (by omega)]
    | succ m =>
      by_cases hc : low + 1 < high
      · simp only [bisect]
        rw [if_pos hc, if_pos hc]
        by_cases hx : xval samples ((low + high) / 2) < x
        · rw [if_pos hx, if_pos hx]
          exact ih m _ _ (by omega) (by omega)
        · rw [if_neg hx, if_neg hx]
          exact ih m _ _ (by omega) (by omega)
      · simp only [bisect]
        rw [if_neg hc, if_neg hc]

/-- When the query is not outside the knot range, `findSegmentIndex_`
is the bisection with fuel `samples.length`. -/
lemma findSegmentIndex_eq_bisect (samples : SamplePoints) (x : Scalar)
    (hlo : ¬ xval samples 0 > x)
    (hhi : ¬ xval samples (samples.length - 1) < x) :
    findSegmentIndex_ samples x
      = bisect samples x samples.length 0 (samples.length - 1) := by
  simp only [findSegmentIndex_, if_neg hhi, if_neg hlo]

/-- Characterization of the segment index for an in-range query. -/
lemma findSegmentIndex_spec (samples : SamplePoints) (x : Scalar)
    (h2 : 2 ≤ samples.length)
    (hlo : ¬ xval samples 0 > x)
    (hhi : ¬ xval samples (samples.length - 1) < x) :
    findSegmentIndex_ samples x + 1 ≤ samples.length - 1
    ∧ (findSegmentIndex_ samples x = 0 ∨ xval samples (findSegmentIndex_ samples x) < x)
    ∧ ¬ xval samples (findSegmentIndex_ samples x + 1) < x := by
  rw [findSegmentIndex_eq_bisect samples x hlo hhi]
  have h := bisect_inv samples x samples.length 0 (samples.length - 1)
    (by omega) (by omega) (Or.inl rfl) hhi
  exact ⟨h.2.1, h.2.2.1, h.2.2.2⟩

/-- The returned segment index is always at most `size - 2`, so the
accesses at `segIdx` and `segIdx + 1` stay in bounds. -/
lemma findSegmentIndex_le (samples : SamplePoints) (x : Scalar)
    (h2 : 2 ≤ samples.length) :
    findSegmentIndex_ samples x + 1 ≤ samples.length - 1 := by
  by_cases hhi : xval samples (samples.length - 1) < x
  · simp only [findSegmentIndex_, if_pos hhi]
    omega
  · by_cases hlo : xval samples 0 > x
    · simp only [findSegmentIndex_, if_neg hhi, if_pos hlo]
      omega
    · exact (findSegmentIndex_spec samples x h2 hlo hhi).1

/-- Adjacent knots strictly increase in a sorted table. -/
lemma xval_adj (samples : SamplePoints) (hs : sortedStrict samples) {i : ℕ}
    (h : i + 1 < samples.length) : xval samples i < xval samples (i + 1) := by
  have h0 := List.chain'_iff_get.mp hs i (by omega)
  unfold xval
  rw [List.getD_eq_getElem _ _ (by omega), List.getD_eq_getElem _ _ h]
  simpa [List.get_eq_getElem] using h0

/-- Knot x-values strictly increase with the index. -/
lemma xval_lt (samples : SamplePoints) (hs : sortedStrict samples) :
    ∀ {i j : ℕ}, i < j → j < samples.length → xval samples i < xval samples j := by
  intro i j
  induction j with
  | zero => omega
  | succ j ih =>
    intro hij hj
    rcases Nat.lt_or_ge i j with h | h
    · exact lt_trans (ih h (by omega)) (xval_adj samples hs hj)
    · have hij' : i = j := by omega
      subst hij'
      exact xval_adj samples hs hj

/-- Knot x-values weakly increase with the index. -/
lemma xval_le (samples : SamplePoints) (hs : sortedStrict samples) {i j : ℕ}
    (hij : i ≤ j) (hj : j < samples.length) : xval samples i ≤ xval samples j := by
  rcases Nat.lt_or_eq_of_le hij with h | h
  · exact le_of_lt (xval_lt samples hs h hj)
  · subst h
    exact le_refl _

/-- Inside an open segment the search returns exactly that segment. -/
lemma seg_open (samples : SamplePoints) (x : Scalar) (hs : sortedStrict samples)
    (h2 : 2 ≤ samples.length) {i : ℕ} (hi : i + 1 ≤ samples.length - 1)
    (hxl : xval samples i < x) (hxr : x < xval samples (i + 1)) :
    findSegmentIndex_ samples x = i := by
  have hlo : ¬ xval samples 0 > x :=
    not_lt.mpr (le_of_lt (lt_of_le_of_lt (xval_le samples hs (Nat.zero_le i) (by omega)) hxl))
  have hhi : ¬ xval samples (samples.length - 1) < x :=
    not_lt.mpr (le_of_lt (lt_of_lt_of_le hxr (xval_le samples hs hi (by omega))))
  obtain ⟨hb, hor, hnext⟩ := findSegmentIndex_spec samples x h2 hlo hhi
  have hge : i ≤ findSegmentIndex_ samples x := by
    by_contra hcon
    push_neg at hcon
    exact hnext (lt_of_le_of_lt (xval_le samples hs (by omega) (by omega)) hxl)
  have hle : findSegmentIndex_ samples x ≤ i := by
    by_contra hcon
    push_neg at hcon
    rcases hor with h0 | hlt
    · omega
    · exact absurd hlt
        (not_lt.mpr (le_of_lt (lt_of_lt_of_le hxr (xval_le samples hs (by omega) (by omega)))))
  omega

/-- At a knot with index `k ≥ 1` the search returns segment `k - 1`,
the segment whose right endpoint is the knot. -/
lemma seg_at_knot (samples : SamplePoints) (hs : sortedStrict samples)
    (h2 : 2 ≤ samples.length) {k : ℕ} (hk1 : 1 ≤ k) (hkn : k ≤ samples.length - 1) :
    findSegmentIndex_ samples (xval samples k) = k - 1 := by
  have hklen : k < samples.length := by omega
  have hlo : ¬ xval samples 0 > xval samples k :=
    not_lt.mpr (xval_le samples hs (Nat.zero_le k) hklen)
  have hhi : ¬ xval samples (samples.length - 1) < xval samples k :=
    not_lt.mpr (xval_le samples hs hkn (by omega))
  obtain ⟨hb, hor, hnext⟩ := findSegmentIndex_spec samples (xval samples k) h2 hlo hhi
  have hlt : findSegmentIndex_ samples (xval samples k) < k := by
    rcases hor with h0 | hlt
    · omega
    · by_contra hcon
      push_neg at hcon
      exact absurd hlt (not_lt.mpr (xval_le samples hs hcon (by omega)))
  have hge : k ≤ findSegmentIndex_ samples (xval samples k) + 1 := by
    by_contra hcon
    push_neg at hcon
    exact hnext (xval_lt samples hs (by omega) hklen)
  omega

/-- At the first knot the search returns segment 0. -/
lemma seg_at_first (samples : SamplePoints) (hs : sortedStrict samples)
    (h2 : 2 ≤ samples.length) :
    findSegmentIndex_ samples (xval samples 0) = 0 := by
  have hlo : ¬ xval samples 0 > xval samples 0 := lt_irrefl _
  have hhi : ¬ xval samples (samples.length - 1) < xval samples 0 :=
    not_lt.mpr (xval_le samples hs (Nat.zero_le _) (by omega))
  obtain ⟨hb, hor, hnext⟩ := findSegmentIndex_spec samples (xval samples 0) h2 hlo hhi
  rcases hor with h0 | hlt
  · exact h0
  · exact absurd hlt (not_lt.mpr (xval_le samples hs (Nat.zero_le _) (by omega)))

/-- `eval_` reproduces the tabulated y-value at every knot. -/
lemma eval_at_knot (samples : SamplePoints) (hs : sortedStrict samples)
    (h2 : 2 ≤ samples.length) {k : ℕ} (hkn : k ≤ samples.length - 1) :
    eval_ samples (xval samples k) = yval samples k := by
  rcases Nat.eq_zero_or_pos k with h0 | hpos
  · subst h0
    simp only [eval_, seg_at_first samples hs h2, sub_self, zero_div, mul_zero, add_zero]
  · have hseg := seg_at_knot samples hs h2 hpos hkn
    have hk1 : k - 1 + 1 = k := by omega
    have hadj : xval samples (k - 1) < xval samples k := by
      have := xval_adj samples hs (i := k - 1) (by omega)
      rwa [hk1] at this
    have hne : xval samples k - xval samples (k - 1) ≠ 0 := sub_ne_zero.mpr (ne_of_gt hadj)
    simp only [eval_, hseg, hk1]
    rw [div_self hne]
    ring

/-- On an open segment the derivative is that segment's slope. -/
lemma evalDeriv_open (samples : SamplePoints) (x : Scalar) (hs : sortedStrict samples)
    (h2 : 2 ≤ samples.length) {i : ℕ} (hi : i + 1 ≤ samples.length - 1)
    (hxl : xval samples i < x) (hxr : x < xval samples (i + 1)) :
    evalDeriv_ samples x
      = (yval samples (i + 1) - yval samples i)
        / (xval samples (i + 1) - xval samples i) := by
  simp only [evalDeriv_, seg_open samples x hs h2 hi hxl hxr]

/-- On an open segment the value is affine with the segment's slope. -/
lemma eval_open_affine (samples : SamplePoints) (x : Scalar) (hs : sortedStrict samples)
    (h2 : 2 ≤ samples.length) {i : ℕ} (hi : i + 1 ≤ samples.length - 1)
    (hxl : xval samples i < x) (hxr : x < xval samples (i + 1)) :
    eval_ samples x
      = yval samples i
        + ((yval samples (i + 1) - yval samples i)
            / (xval samples (i + 1) - xval samples i)) * (x - xval samples i) := by
  simp only [eval_, seg_open samples x hs h2 hi hxl hxr]
  ring

/-- After the zero-filling loop, every entry below the loop bound is 0. -/
lemma zeroFill_eq_zero (values : ℕ → Scalar) {k i : ℕ} (hi : i < k) :
    zeroFill k values i = 0 := by
  induction k with
  | zero => omega
  | succ k ih =>
    simp only [zeroFill, upd]
    by_cases h : i = k
    · rw [if_pos h]
    · rw [if_neg h]
      exact ih (by omega)

/-- C1: on the spec example table `[(0,0),(1/2,1000),(1,3000)]`,
`twoPhaseSatPcnw` returns the segment slope 2000 at Sw = 1/4 and at
Sw = -1/10, not the interpolated/extrapolated values 500 and -200 that
piecewise-linear interpolation (`eval_`) produces there: the function
delegates to `evalDeriv_` instead of `eval_`. -/
theorem C1_twoPhaseSatPcnw_returns_slope :
    twoPhaseSatPcnw exampleParams (1/4) = 2000
    ∧ twoPhaseSatPcnw exampleParams (-1/10) = 2000
    ∧ eval_ exampleParams.pcnwSamples (1/4) = 500
    ∧ eval_ exampleParams.pcnwSamples (-1/10) = -200
    ∧ twoPhaseSatPcnw exampleParams (1/4) ≠ 500
    ∧ twoPhaseSatPcnw exampleParams (-1/10) ≠ -200 := by
  norm_num [twoPhaseSatPcnw, eval_, evalDeriv_, findSegmentIndex_, bisect, xval, yval,
    exampleParams, pcTable]

/-- C2: with wetting index 0, non-wetting index 1, wetting-relperm
table `[(1/5,0),(1,1)]`, non-wetting-relperm table `[(3/10,1),(1,0)]`
and Sn = 1/2, `dRelativePermeabilities_dSaturation` with respect to the
non-wetting saturation writes `-5/4` (the negated slope of the WETTING
table at 1 - Sn) into the non-wetting slot, not the negated slope
`10/7` of the non-wetting table there that the claim demands. -/
theorem C2_dRelPerm_dSat_uses_wetting_table :
    dRelativePermeabilities_dSaturation exampleTraits (fun _ => 0) exampleParams halfState 1 1
      = -(5/4)
    ∧ - evalDeriv_ exampleParams.krnSamples (1 - halfState.saturation 1) = 10/7
    ∧ dRelativePermeabilities_dSaturation exampleTraits (fun _ => 0) exampleParams halfState 1 1
        ≠ - evalDeriv_ exampleParams.krnSamples (1 - halfState.saturation 1)
    ∧ dRelativePermeabilities_dSaturation exampleTraits (fun _ => 0) exampleParams halfState 1 0
        = 0 := by
  norm_num [dRelativePermeabilities_dSaturation, upd, evalDeriv_, findSegmentIndex_, bisect,
    xval, yval, exampleParams, exampleTraits, halfState, krwTable, krnTable]

/-- C3, counterexample: on the table `[(0,0),(1/2,1000),(1,3000)]`
queried exactly at the internal knot 1/2 (index 1), the segment search
returns segment 0 — the one whose RIGHT endpoint equals the query —
not segment 1 as the claim states, and the exact-knot derivative is
the left segment's slope 2000, not the right segment's slope 4000. -/
theorem C3_counterexample_knot_tiebreak :
    xval pcTable 1 = 1/2
    ∧ findSegmentIndex_ pcTable (1/2) = 0
    ∧ findSegmentIndex_ pcTable (1/2) ≠ 1
    ∧ evalDeriv_ pcTable (1/2) = 2000
    ∧ (yval pcTable 2 - yval pcTable 1) / (xval pcTable 2 - xval pcTable 1) = 4000
    ∧ evalDeriv_ pcTable (1/2)
        ≠ (yval pcTable 2 - yval pcTable 1) / (xval pcTable 2 - xval pcTable 1) := by
  norm_num [findSegmentIndex_, bisect, evalDeriv_, xval, yval, pcTable]

/-- C3, amended: for every strictly increasing table with at least two
points and every internal knot index k (0 < k < last), the segment
search selects the segment whose RIGHT endpoint equals the knot
(segment k - 1), so an exact-knot derivative query returns the
constant slope of the segment to the LEFT of the knot. -/
theorem C3_amended_right_endpoint_tiebreak (samples : SamplePoints)
    (hs : sortedStrict samples) (h2 : 2 ≤ samples.length) {k : ℕ}
    (hk1 : 1 ≤ k) (hkn : k < samples.length - 1) :
    findSegmentIndex_ samples (xval samples k) = k - 1
    ∧ evalDeriv_ samples (xval samples k)
        = (yval samples k - yval samples (k - 1))
          / (xval samples k - xval samples (k - 1)) := by
  have hseg := seg_at_knot samples hs h2 hk1 (by omega)
  have hk : k - 1 + 1 = k := by omega
  exact ⟨hseg, by simp only [evalDeriv_, hseg, hk]⟩

/-- Witness for the amended C3 at the concrete table and k = 1. -/
theorem C3_amended_witness :
    findSegmentIndex_ pcTable (xval pcTable 1) = 0
    ∧ evalDeriv_ pcTable (xval pcTable 1)
        = (yval pcTable 1 - yval pcTable 0) / (xval pcTable 1 - xval pcTable 0) := by
  have h := C3_amended_right_endpoint_tiebreak pcTable
    (by norm_num [sortedStrict, pcTable, List.chain'_cons, List.chain'_singleton])
    (by norm_num [pcTable]) (k := 1) (by norm_num) (by norm_num [pcTable])
  simpa using h

/-- C4: `twoPhaseSatKrn` clamps correctly on its own table, and
`krn` is the table lookup at 1 - Sn; but `twoPhaseSatDKrn_dSw` guards
its clamp with the WETTING table's bounds: at Sw = 1/4, which is below
the non-wetting table's first knot 3/10 but inside the wetting table's
domain, it returns the slope -10/7 instead of the 0 the claim
demands. -/
theorem C4_dKrn_clamp_checks_wetting_bounds :
    (1/4 : Scalar) < xval exampleParams.krnSamples 0
    ∧ twoPhaseSatDKrn_dSw exampleParams (1/4) = -(10/7)
    ∧ twoPhaseSatDKrn_dSw exampleParams (1/4) ≠ 0
    ∧ twoPhaseSatKrn exampleParams (1/4) = yval exampleParams.krnSamples 0
    ∧ ∀ st : FluidState, ∀ t : Traits,
        krn t exampleParams st = twoPhaseSatKrn exampleParams (1 - st.saturation t.nPhaseIdx) := by
  refine ⟨?_, ?_, ?_, ?_, fun st t => rfl⟩
  · norm_num [xval, exampleParams, krnTable]
  · norm_num [twoPhaseSatDKrn_dSw, evalDeriv_, findSegmentIndex_, bisect, xval, yval,
      exampleParams, krwTable, krnTable]
  · norm_num [twoPhaseSatDKrn_dSw, evalDeriv_, findSegmentIndex_, bisect, xval, yval,
      exampleParams, krwTable, krnTable]
  · norm_num [twoPhaseSatKrn, xval, yval, exampleParams, krnTable]

/-- C5: for every strictly increasing table with at least two points,
`eval_` reproduces every tabulated y-value at its knot, and on every
open segment it is affine in x with the constant slope
`evalDeriv_ = (y_{i+1} - y_i) / (x_{i+1} - x_i)`. -/
theorem C5_value_knots_and_segment_affine (samples : SamplePoints)
    (hs : sortedStrict samples) (h2 : 2 ≤ samples.length) :
    (∀ k, k ≤ samples.length - 1 → eval_ samples (xval samples k) = yval samples k)
    ∧ ∀ i x, i + 1 ≤ samples.length - 1 →
        xval samples i < x → x < xval samples (i + 1) →
        evalDeriv_ samples x
          = (yval samples (i + 1) - yval samples i)
            / (xval samples (i + 1) - xval samples i)
        ∧ eval_ samples x
          = yval samples i + evalDeriv_ samples x * (x - xval samples i) := by
  refine ⟨fun k hk => eval_at_knot samples hs h2 hk, fun i x hi hxl hxr => ?_⟩
  refine ⟨evalDeriv_open samples x hs h2 hi hxl hxr, ?_⟩
  rw [eval_open_affine samples x hs h2 hi hxl hxr,
    evalDeriv_open samples x hs h2 hi hxl hxr]

/-- Witness for C5 at the concrete table, knot 1 and query 1/4. -/
theorem C5_witness :
    eval_ pcTable (xval pcTable 1) = yval pcTable 1
    ∧ evalDeriv_ pcTable (1/4)
        = (yval pcTable 1 - yval pcTable 0) / (xval pcTable 1 - xval pcTable 0) := by
  have h := C5_value_knots_and_segment_affine pcTable
    (by norm_num [sortedStrict, pcTable, List.chain'_cons, List.chain'_singleton])
    (by norm_num [pcTable])
  exact ⟨h.1 1 (by norm_num [pcTable]),
    (h.2 0 (1/4) (by norm_num [pcTable]) (by norm_num [xval, pcTable])
      (by norm_num [xval, pcTable])).1⟩

/-- C6: `twoPhaseSatKrw` clamps to the nearest endpoint's y outside
the wetting table's domain and `twoPhaseSatDKrw_dSw` returns 0 there;
on the spec example table `[(1/5,0),(1,1)]` the values at 1/10 are 0
and 0, and the interpolated value at 3/5 is 1/2. -/
theorem C6_krw_clamp_and_example (params : Params) (sw : Scalar)
    (hmono : xval params.krwSamples 0
      ≤ xval params.krwSamples (params.krwSamples.length - 1)) :
    (sw < xval params.krwSamples 0 →
        twoPhaseSatKrw params sw = yval params.krwSamples 0
        ∧ twoPhaseSatDKrw_dSw params sw = 0)
    ∧ (xval params.krwSamples (params.krwSamples.length - 1) < sw →
        twoPhaseSatKrw params sw = yval params.krwSamples (params.krwSamples.length - 1)
        ∧ twoPhaseSatDKrw_dSw params sw = 0)
    ∧ twoPhaseSatKrw exampleParams (1/10) = 0
    ∧ twoPhaseSatDKrw_dSw exampleParams (1/10) = 0
    ∧ twoPhaseSatKrw exampleParams (3/5) = 1/2 := by
  refine ⟨fun h => ⟨?_, ?_⟩, fun h => ⟨?_, ?_⟩, ?_, ?_, ?_⟩
  · simp only [twoPhaseSatKrw, if_pos h]
  · simp only [twoPhaseSatDKrw_dSw, if_pos h]
  · have hnl : ¬ sw < xval params.krwSamples 0 :=
      not_lt.mpr (le_trans hmono (le_of_lt h))
    simp only [twoPhaseSatKrw, if_neg hnl, if_pos h]
  · have hnl : ¬ sw < xval params.krwSamples 0 :=
      not_lt.mpr (le_trans hmono (le_of_lt h))
    simp only [twoPhaseSatDKrw_dSw, if_neg hnl, if_pos h]
  · norm_num [twoPhaseSatKrw, xval, yval, exampleParams, krwTable]
  · norm_num [twoPhaseSatDKrw_dSw, xval, exampleParams, krwTable]
  · norm_num [twoPhaseSatKrw, eval_, findSegmentIndex_, bisect, xval, yval,
      exampleParams, krwTable]

/-- Witness for C6 at the concrete table and Sw = 1/10. -/
theorem C6_witness :
    twoPhaseSatKrw exampleParams (1/10) = yval exampleParams.krwSamples 0
    ∧ twoPhaseSatDKrw_dSw exampleParams (1/10) = 0 := by
  have h := C6_krw_clamp_and_example exampleParams (1/10)
    (by norm_num [xval, exampleParams, krwTable])
  exact ⟨(h.1 (by norm_num [xval, exampleParams, krwTable])).1,
    (h.1 (by norm_num [xval, exampleParams, krwTable])).2⟩

/-- C7: the pressure, temperature and mole-fraction derivative
functions of both quantities fill every per-phase output entry with
exactly 0, whatever the state and index arguments. -/
theorem C7_independent_axes_zero (values : ℕ → Scalar) (params : Params)
    (state : FluidState) (pPhaseIdx phaseIdx compIdx i : ℕ) (hi : i < numPhases) :
    dCapillaryPressures_dPressure values params state pPhaseIdx i = 0
    ∧ dCapillaryPressures_dTemperature values params state i = 0
    ∧ dCapillaryPressures_dMoleFraction values params state phaseIdx compIdx i = 0
    ∧ dRelativePermeabilities_dPressure values params state pPhaseIdx i = 0
    ∧ dRelativePermeabilities_dTemperature values params state i = 0
    ∧ dRelativePermeabilities_dMoleFraction values params state phaseIdx compIdx i = 0 := by
  have h := zeroFill_eq_zero values hi
  exact ⟨h, h, h, h, h, h⟩

/-- Witness for C7 at concrete arguments and entry 0. -/
theorem C7_witness :
    dCapillaryPressures_dPressure (fun _ => 7) exampleParams halfState 0 0 = 0
    ∧ dCapillaryPressures_dTemperature (fun _ => 7) exampleParams halfState 0 = 0
    ∧ dCapillaryPressures_dMoleFraction (fun _ => 7) exampleParams halfState 0 0 0 = 0
    ∧ dRelativePermeabilities_dPressure (fun _ => 7) exampleParams halfState 0 0 = 0
    ∧ dRelativePermeabilities_dTemperature (fun _ => 7) exampleParams halfState 0 = 0
    ∧ dRelativePermeabilities_dMoleFraction (fun _ => 7) exampleParams halfState 0 0 0 = 0 :=
  C7_independent_axes_zero (fun _ => 7) exampleParams halfState 0 0 0 0 (by decide)

/-- C8: `Sw`, `twoPhaseSatSw`, `Sn`, `twoPhaseSatSn` and `saturations`
always fail with the Unsupported-Operation error and never return a
value (`Sn` and `twoPhaseSatSn` inherit the failure of the `Sw`
variants they call). -/
theorem C8_unsupported_ops_error (params : Params) (t : Traits) (fs : FluidState)
    (pC : Scalar) (values : ℕ → Scalar) :
    Sw params t fs = Except.error ("Not implemented: Sw()")
    ∧ twoPhaseSatSw params pC = Except.error ("Not implemented: twoPhaseSatSw()")
    ∧ Sn params t fs = Except.error ("Not implemented: Sw()")
    ∧ twoPhaseSatSn params pC = Except.error ("Not implemented: twoPhaseSatSw()")
    ∧ saturations values params t fs = Except.error ("Not implemented: saturations()") :=
  ⟨rfl, rfl, rfl, rfl, rfl⟩

/-- C9: the bisection result is independent of any sufficient fuel
(the loop terminates on its own), the returned segment index i
satisfies i + 1 ≤ size - 1 (so only indices i and i + 1 are accessed,
both in bounds), and for every in-domain query the bracketing
assertions of `eval_` hold. -/
theorem C9_segment_search_terminates_inbounds (samples : SamplePoints) (x : Scalar)
    (h2 : 2 ≤ samples.length) :
    (∀ fuel, samples.length ≤ fuel →
        bisect samples x fuel 0 (samples.length - 1)
          = bisect samples x samples.length 0 (samples.length - 1))
    ∧ findSegmentIndex_ samples x + 1 ≤ samples.length - 1
    ∧ (xval samples 0 ≤ x → x ≤ xval samples (samples.length - 1) →
        xval samples (findSegmentIndex_ samples x) ≤ x
        ∧ x ≤ xval samples (findSegmentIndex_ samples x + 1)) := by
  refine ⟨?_, findSegmentIndex_le samples x h2, ?_⟩
  · intro fuel hf
    exact bisect_fuel_irrel samples x fuel samples.length 0 (samples.length - 1)
      (by omega) (by omega)
  · intro hlo hhi
    obtain ⟨hb, hor, hnext⟩ :=
      findSegmentIndex_spec samples x h2 (not_lt.mpr hlo) (not_lt.mpr hhi)
    refine ⟨?_, not_lt.mp hnext⟩
    rcases hor with h0 | hlt
    · rw [h0]
      exact hlo
    · exact le_of_lt hlt

/-- Witness for C9 at the concrete table and query 1/4. -/
theorem C9_witness :
    bisect pcTable (1/4) 5 0 (pcTable.length - 1)
      = bisect pcTable (1/4) pcTable.length 0 (pcTable.length - 1)
    ∧ findSegmentIndex_ pcTable (1/4) + 1 ≤ pcTable.length - 1
    ∧ xval pcTable (findSegmentIndex_ pcTable (1/4)) ≤ 1/4
    ∧ (1/4 : Scalar) ≤ xval pcTable (findSegmentIndex_ pcTable (1/4) + 1) := by
  have h := C9_segment_search_terminates_inbounds pcTable (1/4) (by norm_num [pcTable])
  have h3 := h.2.2 (by norm_num [xval, pcTable]) (by norm_num [xval, pcTable])
  exact ⟨h.1 5 (by norm_num [pcTable]), h.2.1, h3.1, h3.2⟩

/-- C10: `twoPhaseSatDPcnw_dSw` succeeds exactly on 0 < Sw < 1, where
it returns the capillary-pressure table's segment slope; its assertion
fires outside that range; and neither `twoPhaseSatPcnw` nor
`dCapillaryPressures_dSaturation` restricts the saturation range —
for every state both yield the table evaluation unconditionally. -/
theorem C10_dPcnw_dSw_assert_range (params : Params) (sw : Scalar) :
    (0 < sw → sw < 1 →
        twoPhaseSatDPcnw_dSw params sw = some (evalDeriv_ params.pcnwSamples sw))
    ∧ (sw ≤ 0 ∨ 1 ≤ sw → twoPhaseSatDPcnw_dSw params sw = none)
    ∧ (∀ t : Traits, ∀ values : ℕ → Scalar, ∀ state : FluidState,
        dCapillaryPressures_dSaturation t values params state t.wPhaseIdx t.nPhaseIdx
          = evalDeriv_ params.pcnwSamples (state.saturation t.wPhaseIdx))
    ∧ twoPhaseSatPcnw params sw = evalDeriv_ params.pcnwSamples sw := by
  refine ⟨fun h1 h2 => ?_, fun h => ?_, fun t values state => ?_, rfl⟩
  · simp only [twoPhaseSatDPcnw_dSw, if_pos (And.intro h1 h2)]
  · have hn : ¬ (0 < sw ∧ sw < 1) := by
      rcases h with h | h
      · exact fun hc => absurd hc.1 (not_lt.mpr h)
      · exact fun hc => absurd hc.2 (not_lt.mpr h)
    simp only [twoPhaseSatDPcnw_dSw, if_neg hn]
  · simp [dCapillaryPressures_dSaturation, upd]

/-- Witness for C10 at Sw = 1/4 (assertion holds) and Sw = -1/10
(assertion fires). -/
theorem C10_witness :
    twoPhaseSatDPcnw_dSw exampleParams (1/4)
      = some (evalDeriv_ exampleParams.pcnwSamples (1/4))
    ∧ twoPhaseSatDPcnw_dSw exampleParams (-(1/10)) = none := by
  have h := C10_dPcnw_dSw_assert_range exampleParams (1/4)
  have h2 := C10_dPcnw_dSw_assert_range exampleParams (-(1/10))
  exact ⟨h.1 (by norm_num) (by norm_num), h2.2.1 (Or.inl (by norm_num))⟩

end PLTwoPhase
